import Mathlib

/-!
# URL shortener (`src/main.go`): shallow embedding and verified properties

Conventions of the embedding.

* A Go `string` is a sequence of bytes.  It is embedded as a Lean `String`
  whose characters are the bytes, so `len(s)` is `s.length`, `s[n:]` drops
  `n` characters and `s[:n]` keeps `n` characters.  An out-of-range slice
  panics in Go; the embedding returns `none`.
* Go's `int` is taken at 64 bits (the size on amd64 and arm64): `Clicks` is an
  `Int` and `entry.Clicks++` wraps around with `wrapInt`.
* `map[string]URLEntry` is a function `String → Option URLEntry`.
* `sync.RWMutex`: every locked section is one atomic step on the store.
* What the handlers obtain from outside the program (the JSON decoder of the
  request body, `time.Now()`, `os.Getenv`, `crypto/rand`) is collected in `Env`.
* A handler returns `none` when the Go code panics, and otherwise the response
  it wrote together with the store it leaves.
-/

namespace UrlShortener

/-! ## Go strings and slices -/

/-- The Go slice expression `s[n:]`: panics (`none`) when `n > len(s)`. -/
def sliceFrom (s : String) (n : Nat) : Option String :=
  if n ≤ s.length then some ⟨s.data.drop n⟩ else none

/-- The Go slice expression `s[:n]`: panics (`none`) when `n > len(s)`. -/
def sliceTo (s : String) (n : Nat) : Option String :=
  if n ≤ s.length then some ⟨s.data.take n⟩ else none

/-! ## `encoding/base64`, `URLEncoding` (Go standard library, RFC 4648 section 5) -/

/-- The alphabet `encodeURL` of `base64.URLEncoding`. -/
def encodeURL : List Char :=
  "ABCDEFGHIJKLMNOPQRSTUVWXYZabcdefghijklmnopqrstuvwxyz0123456789-_".data

/-- The table lookup `enc.encode[i]`, for an index already masked with `0x3F`. -/
def encodeChar (i : Nat) : Char := encodeURL.getD i 'A'

/-- The padding character `StdPadding` of `base64.URLEncoding`. -/
def padChar : Char := '='

/-- The loop of `(*Encoding).Encode`: three source bytes become four characters;
a final block of one or two bytes is padded with `padChar`. -/
def Encode : List Nat → List Char
  | b0 :: b1 :: b2 :: rest =>
    let val := b0 <<< 16 ||| b1 <<< 8 ||| b2
    encodeChar (val >>> 18 &&& 0x3F) :: encodeChar (val >>> 12 &&& 0x3F) ::
      encodeChar (val >>> 6 &&& 0x3F) :: encodeChar (val &&& 0x3F) :: Encode rest
  | [b0, b1] =>
    let val := b0 <<< 16 ||| b1 <<< 8
    [encodeChar (val >>> 18 &&& 0x3F), encodeChar (val >>> 12 &&& 0x3F),
      encodeChar (val >>> 6 &&& 0x3F), padChar]
  | [b0] =>
    let val := b0 <<< 16
    [encodeChar (val >>> 18 &&& 0x3F), encodeChar (val >>> 12 &&& 0x3F), padChar, padChar]
  | [] => []

/-- The call `base64.URLEncoding.EncodeToString(b)`. -/
def EncodeToString (b : List Nat) : String := ⟨Encode b⟩

/-! ## `crypto/rand` -/

/-- The call `rand.Read(b)`: every byte of the buffer `b` is overwritten with the
next byte of the entropy source (`entropy i` is the `i`-th value drawn, reduced
to a byte). -/
def randRead (entropy : Nat → Nat) (b : List Nat) : List Nat :=
  (List.range b.length).map (fun i => entropy i % 256)

/-- The function `generateShortCode` (lines 177-181). -/
def generateShortCode (entropy : Nat → Nat) : Option String :=
  let b := List.replicate 6 0
  let b := randRead entropy b
  sliceTo (EncodeToString b) 8

/-! ## Data model (lines 14-52) -/

/-- Width of Go's `int` in bits. -/
def intSize : Nat := 64

/-- Largest value of Go's `int`. -/
def maxInt : Int := 2 ^ (intSize - 1) - 1

/-- Smallest value of Go's `int`. -/
def minInt : Int := -(2 ^ (intSize - 1))

/-- Two's-complement wrap-around of an arithmetic result to Go's `int`. -/
def wrapInt (x : Int) : Int := (x + 2 ^ (intSize - 1)) % 2 ^ intSize - 2 ^ (intSize - 1)

/-- The struct `URLEntry`; `CreatedAt` is a point in time, kept abstract. -/
structure URLEntry where
  OriginalURL : String
  ShortCode : String
  CreatedAt : Nat
  Clicks : Int
  deriving DecidableEq, Repr

/-- The struct `ShortenRequest`. -/
structure ShortenRequest where
  URL : String
  deriving DecidableEq, Repr

/-- The struct `ShortenResponse`. -/
structure ShortenResponse where
  ShortURL : String
  ShortCode : String
  OriginalURL : String
  deriving DecidableEq, Repr

/-- The struct `StatsResponse`. -/
structure StatsResponse where
  ShortCode : String
  OriginalURL : String
  Clicks : Int
  CreatedAt : Nat
  deriving DecidableEq, Repr

/-- The struct `ErrorResponse`. -/
structure ErrorResponse where
  Error : String
  deriving DecidableEq, Repr

/-- The struct `URLStore`: the map `urls`; the mutex `mu` is the atomicity of
the steps below. -/
structure URLStore where
  urls : String → Option URLEntry

/-- The global `store` at program start: `make(map[string]URLEntry)`. -/
def store : URLStore := ⟨fun _ => none⟩

/-- The map assignment `store.urls[shortCode] = entry`. -/
def URLStore.set (s : URLStore) (shortCode : String) (entry : URLEntry) : URLStore :=
  ⟨fun k => if k = shortCode then some entry else s.urls k⟩

/-! ## Requests, responses, environment -/

/-- The part of `*http.Request` the handlers read: `r.Method`, `r.URL.Path`, `r.Body`. -/
structure Request where
  Method : String
  Path : String
  Body : String

/-- What a handler writes to the `http.ResponseWriter`. -/
inductive Payload where
  /-- A JSON-encoded `ErrorResponse`. -/
  | error (e : ErrorResponse)
  /-- A JSON-encoded `ShortenResponse`. -/
  | shorten (r : ShortenResponse)
  /-- A JSON-encoded `StatsResponse`. -/
  | stats (r : StatsResponse)
  /-- The JSON service descriptor of `GET /`. -/
  | info
  /-- The call `http.NotFound(w, r)`. -/
  | notFound
  /-- The call `http.Redirect(w, r, url, code)`, with its target `url`. -/
  | redirect (url : String)
  deriving DecidableEq, Repr

/-- A response: the status code and what was written. -/
structure Response where
  Status : Nat
  Payload : Payload
  deriving DecidableEq, Repr

/-- What a request handler obtains from outside the program. -/
structure Env where
  /-- The call `json.NewDecoder(r.Body).Decode(&req)`: `none` is a non-nil `err`. -/
  Decode : String → Option ShortenRequest
  /-- The call `time.Now()`. -/
  Now : Nat
  /-- The call `os.Getenv`. -/
  Getenv : String → String
  /-- The bytes drawn from `crypto/rand`. -/
  Rand : Nat → Nat

/-! ## Handlers -/

/-- The locked read of `handleRoot` (lines 67-69): `entry, exists := store.urls[shortCode]`. -/
def rootLoad (s : URLStore) (shortCode : String) : Option URLEntry :=
  s.urls shortCode

/-- The locked write-back of `handleRoot` (lines 77-80): `entry.Clicks++` on the
local copy, then `store.urls[shortCode] = entry`.  Returns the local copy and
the store. -/
def rootWriteBack (s : URLStore) (shortCode : String) (entry : URLEntry) : URLEntry × URLStore :=
  let entry := { entry with Clicks := wrapInt (entry.Clicks + 1) }
  (entry, s.set shortCode entry)

/-- The handler `handleRoot` (lines 63-93), run without interleaving. -/
def handleRoot (r : Request) (s : URLStore) : Option (Response × URLStore) :=
  if r.Path ≠ "/" then
    match sliceFrom r.Path 1 with
    | none => none
    | some shortCode =>
      match rootLoad s shortCode with
      | none => some (⟨404, Payload.notFound⟩, s)
      | some entry =>
        let (entry, s) := rootWriteBack s shortCode entry
        some (⟨302, Payload.redirect entry.OriginalURL⟩, s)
  else
    some (⟨200, Payload.info⟩, s)

/-- The handler `handleShorten` (lines 95-145). -/
def handleShorten (env : Env) (r : Request) (s : URLStore) : Option (Response × URLStore) :=
  if r.Method ≠ "POST" then
    some (⟨405, Payload.error ⟨"Method not allowed"⟩⟩, s)
  else
    match env.Decode r.Body with
    | none => some (⟨400, Payload.error ⟨"Invalid JSON"⟩⟩, s)
    | some req =>
      if req.URL = "" then
        some (⟨400, Payload.error ⟨"URL is required"⟩⟩, s)
      else
        match generateShortCode env.Rand with
        | none => none
        | some shortCode =>
          let entry : URLEntry :=
            { OriginalURL := req.URL, ShortCode := shortCode, CreatedAt := env.Now, Clicks := 0 }
          let s := s.set shortCode entry
          let baseURL := env.Getenv "BASE_URL"
          let baseURL := if baseURL = "" then "http://localhost:8080" else baseURL
          some (⟨201, Payload.shorten
            { ShortURL := baseURL ++ "/" ++ shortCode, ShortCode := shortCode,
              OriginalURL := req.URL }⟩, s)

/-- The handler `handleStats` (lines 147-175). -/
def handleStats (r : Request) (s : URLStore) : Option (Response × URLStore) :=
  if r.Method ≠ "GET" then
    some (⟨405, Payload.error ⟨"Method not allowed"⟩⟩, s)
  else
    match sliceFrom r.Path 7 with
    | none => none
    | some shortCode =>
      match s.urls shortCode with
      | none => some (⟨404, Payload.error ⟨"Short URL not found"⟩⟩, s)
      | some entry =>
        some (⟨200, Payload.stats
          { ShortCode := entry.ShortCode, OriginalURL := entry.OriginalURL,
            Clicks := entry.Clicks, CreatedAt := entry.CreatedAt }⟩, s)

/-! ## The service as a transition system -/

/-- One request served from start to end without interleaving. -/
inductive Op where
  /-- A request routed to `handleShorten`. -/
  | shorten (env : Env) (r : Request)
  /-- A request routed to `handleRoot`. -/
  | root (r : Request)
  /-- A request routed to `handleStats`. -/
  | stats (r : Request)

/-- The handler an operation runs. -/
def applyOp : Op → URLStore → Option (Response × URLStore)
  | Op.shorten env r, s => handleShorten env r s
  | Op.root r, s => handleRoot r s
  | Op.stats r, s => handleStats r s

/-- Where a redirect request stands inside `handleRoot`. -/
inductive RootThread where
  /-- Before the locked read of line 67, with the local `shortCode`. -/
  | atLoad (shortCode : String)
  /-- After the test of line 71 and before the lock of line 77, with the locals
  `shortCode` and `entry`. -/
  | atWriteBack (shortCode : String) (entry : URLEntry)
  /-- Returned, with the response written. -/
  | done (resp : Response)
  deriving DecidableEq, Repr

/-- The next locked section of a redirect request, executed atomically. -/
def rootStep : RootThread → URLStore → RootThread × URLStore
  | RootThread.atLoad shortCode, s =>
    match rootLoad s shortCode with
    | none => (RootThread.done ⟨404, Payload.notFound⟩, s)
    | some entry => (RootThread.atWriteBack shortCode entry, s)
  | RootThread.atWriteBack shortCode entry, s =>
    let (entry, s) := rootWriteBack s shortCode entry
    (RootThread.done ⟨302, Payload.redirect entry.OriginalURL⟩, s)
  | RootThread.done resp, s => (RootThread.done resp, s)

/-- The running service: the store and the redirect requests in flight. -/
structure System where
  store : URLStore
  inflight : List RootThread

/-- The service at program start. -/
def System.init : System := ⟨UrlShortener.store, []⟩

/-- What can happen next in the running service. -/
inductive Event where
  /-- A whole request is served without interleaving. -/
  | op (o : Op)
  /-- A redirect request enters `handleRoot` and runs up to line 66. -/
  | rootBegin (r : Request)
  /-- The redirect request number `i` in flight runs its next locked section. -/
  | rootAdvance (i : Nat)

/-- One event of the running service.  A handler that panics leaves the store
as it was (no handler panics after it has written). -/
def applyEvent (sys : System) : Event → System
  | Event.op o =>
    match applyOp o sys.store with
    | none => sys
    | some (_, s) => { sys with store := s }
  | Event.rootBegin r =>
    if r.Path ≠ "/" then
      match sliceFrom r.Path 1 with
      | none => sys
      | some shortCode => { sys with inflight := sys.inflight ++ [RootThread.atLoad shortCode] }
    else sys
  | Event.rootAdvance i =>
    match sys.inflight.get? i with
    | none => sys
    | some t =>
      let (t, s) := rootStep t sys.store
      { store := s, inflight := sys.inflight.set i t }

/-- A sequence of events, from the left. -/
def run (sys : System) (events : List Event) : System :=
  events.foldl applyEvent sys

/-! ## Vocabulary of the properties -/

/-- A character of the URL-safe base64 alphabet: `A-Z`, `a-z`, `0-9`, `-`, `_`. -/
def isURLSafe (c : Char) : Prop :=
  ('A' ≤ c ∧ c ≤ 'Z') ∨ ('a' ≤ c ∧ c ≤ 'z') ∨ ('0' ≤ c ∧ c ≤ '9') ∨ c = '-' ∨ c = '_'

instance (c : Char) : Decidable (isURLSafe c) := by
  unfold isURLSafe; infer_instance

/-- The value of `Clicks` is one Go's `int` can hold. -/
def inIntRange (x : Int) : Prop := minInt ≤ x ∧ x ≤ maxInt

instance (x : Int) : Decidable (inIntRange x) := by
  unfold inIntRange; infer_instance

/-- Key/entry agreement: every key of the map is the `ShortCode` of its entry. -/
def KeysAgree (s : URLStore) : Prop :=
  ∀ k e, s.urls k = some e → e.ShortCode = k

/-- The local copy a redirect request holds was read under its own `shortCode`. -/
def ThreadAgrees : RootThread → Prop
  | RootThread.atWriteBack shortCode entry => entry.ShortCode = shortCode
  | _ => True

/-- Key/entry agreement of the running service: of the store and of the local
copies held by the redirect requests in flight. -/
def SystemAgrees (sys : System) : Prop :=
  KeysAgree sys.store ∧ ∀ t ∈ sys.inflight, ThreadAgrees t

/-- The errors a handler answers with and what causes each: 405 from
`handleShorten` or `handleStats` for a wrong method, 400 from `handleShorten` for
an undecodable body or an empty `url`, 404 from `handleRoot` or `handleStats`
for a code that is not a key of the store. -/
def errorCause (s : URLStore) (resp : Response) : Op → Prop
  | Op.shorten env r =>
    (resp.Status = 405 ∧ r.Method ≠ "POST") ∨
    (resp.Status = 400 ∧ r.Method = "POST" ∧
      (env.Decode r.Body = none ∨ env.Decode r.Body = some ⟨""⟩))
  | Op.root r =>
    resp.Status = 404 ∧ r.Path ≠ "/" ∧ ∃ c, sliceFrom r.Path 1 = some c ∧ s.urls c = none
  | Op.stats r =>
    (resp.Status = 405 ∧ r.Method ≠ "GET") ∨
    (resp.Status = 404 ∧ r.Method = "GET" ∧
      ∃ c, sliceFrom r.Path 7 = some c ∧ s.urls c = none)

/-! ## Sample inputs -/

/-- An environment whose decoder reads the body as the URL itself, with `BASE_URL`
unset and an entropy source that yields zero bytes. -/
def sampleEnv : Env :=
  { Decode := fun body => some ⟨body⟩, Now := 7, Getenv := fun _ => "", Rand := fun _ => 0 }

/-- A store with the single key `AAAAAAAA`, clicked `clicks` times. -/
def sampleStore (clicks : Int) : URLStore :=
  store.set "AAAAAAAA"
    { OriginalURL := "https://old.example", ShortCode := "AAAAAAAA", CreatedAt := 3,
      Clicks := clicks }

/-- A redirect request for the code `AAAAAAAA`. -/
def sampleRedirect : Request := ⟨"GET", "/AAAAAAAA", ""⟩

/-- A shorten request for `https://example.com`. -/
def sampleShorten : Request := ⟨"POST", "/shorten", "https://example.com"⟩

/-! ## Base64: arithmetic of one block -/

theorem pack3 (b0 b1 b2 : Nat) (h1 : b1 < 256) (h2 : b2 < 256) :
    b0 <<< 16 ||| b1 <<< 8 ||| b2 = b0 * 65536 + b1 * 256 + b2 := by
  have e1 : b1 <<< 8 ||| b2 = b1 * 256 + b2 := by
    rw [Nat.shiftLeft_eq, Nat.mul_comm b1, ← Nat.mul_add_lt_is_or (by omega) b1]
  rw [Nat.or_assoc, e1, Nat.shiftLeft_eq, Nat.mul_comm b0,
    ← Nat.mul_add_lt_is_or (by omega) b0]
  omega

theorem sextet_eq (v k : Nat) : v >>> k &&& 0x3F = v / 2 ^ k % 64 := by
  rw [Nat.shiftRight_eq_div_pow]
  exact Nat.and_pow_two_sub_one_eq_mod _ 6

theorem sextet_low_eq (v : Nat) : v &&& 0x3F = v % 64 :=
  Nat.and_pow_two_sub_one_eq_mod _ 6

theorem sextet_lt (v k : Nat) : v >>> k &&& 0x3F < 64 := by
  rw [sextet_eq]; exact Nat.mod_lt _ (by decide)

theorem sextet_low_lt (v : Nat) : v &&& 0x3F < 64 := by
  rw [sextet_low_eq]; exact Nat.mod_lt _ (by decide)

theorem encodeChar_urlSafe : ∀ i, i < 64 → isURLSafe (encodeChar i) := by
  decide

theorem encodeChar_injOn : ∀ i, i < 64 → ∀ j, j < 64 → encodeChar i = encodeChar j → i = j := by
  decide

theorem isURLSafe_not_special (c : Char) (h : isURLSafe c) : c ≠ '=' ∧ c ≠ '+' ∧ c ≠ '/' := by
  refine ⟨?_, ?_, ?_⟩ <;> (intro hc; subst hc; revert h; decide)

/-- The six bytes `generateShortCode` encodes. -/
theorem randRead_six (entropy : Nat → Nat) :
    randRead entropy (List.replicate 6 0) =
      [entropy 0 % 256, entropy 1 % 256, entropy 2 % 256,
        entropy 3 % 256, entropy 4 % 256, entropy 5 % 256] := rfl

/-- Every sequence of six bytes is drawn by some entropy source. -/
theorem randRead_surjective (b : List Nat) (hlen : b.length = 6) (hb : ∀ x ∈ b, x < 256) :
    ∃ entropy, randRead entropy (List.replicate 6 0) = b := by
  refine ⟨fun i => b.getD i 0, ?_⟩
  rw [randRead_six]
  match b, hlen, hb with
  | [a0, a1, a2, a3, a4, a5], _, hb =>
    simp only [List.mem_cons, List.mem_singleton, forall_eq_or_imp, forall_eq] at hb
    simp only [List.getD_cons_zero, List.getD_cons_succ]
    obtain ⟨h0, h1, h2, h3, h4, h5⟩ := hb
    simp [Nat.mod_eq_of_lt, *]

/-- The encoding of six bytes, character by character. -/
theorem Encode_six (b0 b1 b2 b3 b4 b5 : Nat) :
    Encode [b0, b1, b2, b3, b4, b5] =
      [encodeChar ((b0 <<< 16 ||| b1 <<< 8 ||| b2) >>> 18 &&& 0x3F),
       encodeChar ((b0 <<< 16 ||| b1 <<< 8 ||| b2) >>> 12 &&& 0x3F),
       encodeChar ((b0 <<< 16 ||| b1 <<< 8 ||| b2) >>> 6 &&& 0x3F),
       encodeChar ((b0 <<< 16 ||| b1 <<< 8 ||| b2) &&& 0x3F),
       encodeChar ((b3 <<< 16 ||| b4 <<< 8 ||| b5) >>> 18 &&& 0x3F),
       encodeChar ((b3 <<< 16 ||| b4 <<< 8 ||| b5) >>> 12 &&& 0x3F),
       encodeChar ((b3 <<< 16 ||| b4 <<< 8 ||| b5) >>> 6 &&& 0x3F),
       encodeChar ((b3 <<< 16 ||| b4 <<< 8 ||| b5) &&& 0x3F)] := rfl

/-- The slice `[:8]` of `generateShortCode` keeps the whole encoding. -/
theorem generateShortCode_eq (entropy : Nat → Nat) :
    generateShortCode entropy =
      some (EncodeToString (randRead entropy (List.replicate 6 0))) := by
  simp only [generateShortCode, sliceTo, EncodeToString, randRead_six, Encode_six]
  rfl

/-- One block of four characters determines its three bytes. -/
theorem block_injective (a0 a1 a2 b0 b1 b2 : Nat)
    (ha0 : a0 < 256) (ha1 : a1 < 256) (ha2 : a2 < 256)
    (hb0 : b0 < 256) (hb1 : b1 < 256) (hb2 : b2 < 256)
    (h18 : encodeChar ((a0 <<< 16 ||| a1 <<< 8 ||| a2) >>> 18 &&& 0x3F) =
      encodeChar ((b0 <<< 16 ||| b1 <<< 8 ||| b2) >>> 18 &&& 0x3F))
    (h12 : encodeChar ((a0 <<< 16 ||| a1 <<< 8 ||| a2) >>> 12 &&& 0x3F) =
      encodeChar ((b0 <<< 16 ||| b1 <<< 8 ||| b2) >>> 12 &&& 0x3F))
    (h6 : encodeChar ((a0 <<< 16 ||| a1 <<< 8 ||| a2) >>> 6 &&& 0x3F) =
      encodeChar ((b0 <<< 16 ||| b1 <<< 8 ||| b2) >>> 6 &&& 0x3F))
    (h0 : encodeChar ((a0 <<< 16 ||| a1 <<< 8 ||| a2) &&& 0x3F) =
      encodeChar ((b0 <<< 16 ||| b1 <<< 8 ||| b2) &&& 0x3F)) :
    a0 = b0 ∧ a1 = b1 ∧ a2 = b2 := by
  have i18 := encodeChar_injOn _ (sextet_lt _ _) _ (sextet_lt _ _) h18
  have i12 := encodeChar_injOn _ (sextet_lt _ _) _ (sextet_lt _ _) h12
  have i6 := encodeChar_injOn _ (sextet_lt _ _) _ (sextet_lt _ _) h6
  have i0 := encodeChar_injOn _ (sextet_low_lt _) _ (sextet_low_lt _) h0
  rw [sextet_eq, sextet_eq, pack3 a0 a1 a2 ha1 ha2, pack3 b0 b1 b2 hb1 hb2] at i18 i12 i6
  rw [sextet_low_eq, sextet_low_eq, pack3 a0 a1 a2 ha1 ha2, pack3 b0 b1 b2 hb1 hb2] at i0
  omega

/-- Equal codes come from equal byte sequences. -/
theorem shortCode_bytes_injective (e1 e2 : Nat → Nat)
    (h : generateShortCode e1 = generateShortCode e2) :
    randRead e1 (List.replicate 6 0) = randRead e2 (List.replicate 6 0) := by
  rw [generateShortCode_eq, generateShortCode_eq] at h
  have h' : Encode (randRead e1 (List.replicate 6 0)) = Encode (randRead e2 (List.replicate 6 0)) :=
    congrArg String.data (Option.some.inj h)
  rw [randRead_six, randRead_six, Encode_six, Encode_six] at h'
  simp only [List.cons.injEq, and_true] at h'
  obtain ⟨c0, c1, c2, c3, c4, c5, c6, c7⟩ := h'
  have m : ∀ i, e1 i % 256 < 256 := fun i => Nat.mod_lt _ (by decide)
  have n : ∀ i, e2 i % 256 < 256 := fun i => Nat.mod_lt _ (by decide)
  obtain ⟨x0, x1, x2⟩ := block_injective _ _ _ _ _ _ (m 0) (m 1) (m 2) (n 0) (n 1) (n 2) c0 c1 c2 c3
  obtain ⟨x3, x4, x5⟩ := block_injective _ _ _ _ _ _ (m 3) (m 4) (m 5) (n 3) (n 4) (n 5) c4 c5 c6 c7
  rw [randRead_six, randRead_six, x0, x1, x2, x3, x4, x5]

/-! ## Slices, the map and `int` arithmetic -/

theorem sliceFrom_append (p c : String) : sliceFrom (p ++ c) p.length = some c := by
  simp [sliceFrom, String.length_append, String.data_append]

theorem sliceFrom_root (c : String) : sliceFrom ("/" ++ c) 1 = some c :=
  sliceFrom_append "/" c

theorem sliceFrom_stats (c : String) : sliceFrom ("/stats/" ++ c) 7 = some c :=
  sliceFrom_append "/stats/" c

theorem root_path_ne (c : String) (hc : c ≠ "") : "/" ++ c ≠ "/" := by
  intro h
  apply hc
  have h' := congrArg String.data h
  rw [String.data_append] at h'
  apply String.ext
  simpa using h'

theorem set_urls_same (s : URLStore) (k : String) (e : URLEntry) :
    (s.set k e).urls k = some e := by
  simp [URLStore.set]

theorem set_urls_other (s : URLStore) (k k' : String) (e : URLEntry) (h : k' ≠ k) :
    (s.set k e).urls k' = s.urls k' := by
  simp [URLStore.set, h]

theorem wrapInt_succ (x : Int) (h1 : minInt ≤ x) (h2 : x < maxInt) : wrapInt (x + 1) = x + 1 := by
  simp only [wrapInt, minInt, maxInt, intSize] at *
  norm_num at *
  omega

theorem wrapInt_maxInt : wrapInt (maxInt + 1) = minInt := by
  decide

/-! ## The handlers, case by case -/

theorem handleShorten_method (env : Env) (r : Request) (s : URLStore) (h : r.Method ≠ "POST") :
    handleShorten env r s = some (⟨405, Payload.error ⟨"Method not allowed"⟩⟩, s) := by
  simp [handleShorten, h]

theorem handleShorten_invalid (env : Env) (r : Request) (s : URLStore) (hm : r.Method = "POST")
    (hd : env.Decode r.Body = none) :
    handleShorten env r s = some (⟨400, Payload.error ⟨"Invalid JSON"⟩⟩, s) := by
  simp [handleShorten, hm, hd]

theorem handleShorten_empty (env : Env) (r : Request) (s : URLStore) (hm : r.Method = "POST")
    (hd : env.Decode r.Body = some ⟨""⟩) :
    handleShorten env r s = some (⟨400, Payload.error ⟨"URL is required"⟩⟩, s) := by
  simp [handleShorten, hm, hd]

theorem handleShorten_created (env : Env) (r : Request) (s : URLStore) (url : String)
    (hm : r.Method = "POST") (hd : env.Decode r.Body = some ⟨url⟩) (hu : url ≠ "") :
    handleShorten env r s =
      some (⟨201, Payload.shorten
          { ShortURL := (if env.Getenv "BASE_URL" = "" then "http://localhost:8080"
              else env.Getenv "BASE_URL") ++ "/" ++
              EncodeToString (randRead env.Rand (List.replicate 6 0)),
            ShortCode := EncodeToString (randRead env.Rand (List.replicate 6 0)),
            OriginalURL := url }⟩,
        s.set (EncodeToString (randRead env.Rand (List.replicate 6 0)))
          { OriginalURL := url,
            ShortCode := EncodeToString (randRead env.Rand (List.replicate 6 0)),
            CreatedAt := env.Now, Clicks := 0 }) := by
  simp [handleShorten, hm, hd, hu, generateShortCode_eq]

theorem handleStats_method (r : Request) (s : URLStore) (h : r.Method ≠ "GET") :
    handleStats r s = some (⟨405, Payload.error ⟨"Method not allowed"⟩⟩, s) := by
  simp [handleStats, h]

theorem handleStats_store (r : Request) (s s' : URLStore) (resp : Response)
    (h : handleStats r s = some (resp, s')) : s' = s := by
  unfold handleStats at h
  split at h
  · simp only [Option.some.injEq, Prod.mk.injEq] at h; exact h.2.symm
  · split at h
    · exact absurd h (by simp)
    · split at h <;> (simp only [Option.some.injEq, Prod.mk.injEq] at h; exact h.2.symm)

theorem handleRoot_notFound (r : Request) (s : URLStore) (c : String) (hp : r.Path ≠ "/")
    (hs : sliceFrom r.Path 1 = some c) (hc : s.urls c = none) :
    handleRoot r s = some (⟨404, Payload.notFound⟩, s) := by
  simp [handleRoot, hp, hs, rootLoad, hc]

theorem handleRoot_found (r : Request) (s : URLStore) (c : String) (e : URLEntry)
    (hp : r.Path ≠ "/") (hs : sliceFrom r.Path 1 = some c) (hc : s.urls c = some e) :
    handleRoot r s =
      some (⟨302, Payload.redirect e.OriginalURL⟩,
        s.set c { e with Clicks := wrapInt (e.Clicks + 1) }) := by
  simp [handleRoot, hp, hs, rootLoad, hc, rootWriteBack]

/-- The two locked sections of `rootStep`, run back to back, are `handleRoot`. -/
theorem handleRoot_eq_rootStep (r : Request) (s : URLStore) (c : String) (hp : r.Path ≠ "/")
    (hs : sliceFrom r.Path 1 = some c) :
    handleRoot r s =
      match rootStep (rootStep (RootThread.atLoad c) s).1 (rootStep (RootThread.atLoad c) s).2 with
      | (RootThread.done resp, s') => some (resp, s')
      | _ => none := by
  cases hc : s.urls c with
  | none => simp [handleRoot, hp, hs, rootLoad, hc, rootStep]
  | some e => simp [handleRoot, hp, hs, rootLoad, hc, rootStep, rootWriteBack]

/-! ## Properties of the code generator -/

/-- C8: for every six random bytes the encoding has eight characters, so the
slice `[:8]` is within bounds and `generateShortCode` returns; the code it
returns has exactly 8 characters, each of them in `A-Z`, `a-z`, `0-9`, `-`, `_`,
and none of them `=`, `+` or `/`. -/
theorem generateShortCode_length_alphabet (entropy : Nat → Nat) :
    8 ≤ (EncodeToString (randRead entropy (List.replicate 6 0))).length ∧
    ∃ code, generateShortCode entropy = some code ∧ code.length = 8 ∧
      ∀ ch ∈ code.data, isURLSafe ch ∧ ch ≠ '=' ∧ ch ≠ '+' ∧ ch ≠ '/' := by
  have hlen : (EncodeToString (randRead entropy (List.replicate 6 0))).length = 8 := by
    rw [randRead_six]; rfl
  refine ⟨by omega, _, generateShortCode_eq entropy, hlen, ?_⟩
  intro ch hch
  have hs : isURLSafe ch := by
    simp only [EncodeToString, randRead_six, Encode_six, List.mem_cons, List.mem_singleton,
      List.not_mem_nil, or_false] at hch
    rcases hch with h | h | h | h | h | h | h | h <;> rw [h] <;>
      first
        | exact encodeChar_urlSafe _ (sextet_lt _ _)
        | exact encodeChar_urlSafe _ (sextet_low_lt _)
  exact ⟨hs, isURLSafe_not_special ch hs⟩

/-! ## Properties of the handlers -/

/-- C7: a `GET /stats/c` answers 404 exactly when `c` is not a key of the store,
and otherwise 200 with the four fields of the entry stored under `c`; in both
cases the store is left as it was. -/
theorem handleStats_lookup (s : URLStore) (c body : String) :
    handleStats ⟨"GET", "/stats/" ++ c, body⟩ s =
      some (match s.urls c with
        | none => ⟨404, Payload.error ⟨"Short URL not found"⟩⟩
        | some e => ⟨200, Payload.stats
            { ShortCode := e.ShortCode, OriginalURL := e.OriginalURL,
              Clicks := e.Clicks, CreatedAt := e.CreatedAt }⟩, s) ∧
    ((handleStats ⟨"GET", "/stats/" ++ c, body⟩ s).map (fun p => p.1.Status) = some 404 ↔
      s.urls c = none) := by
  cases hc : s.urls c with
  | none => simp [handleStats, sliceFrom_stats, hc]
  | some e => simp [handleStats, sliceFrom_stats, hc]

/-- C3: a `POST /shorten` whose body decodes to a non-empty `url` returns, with a
generated code `c`: status 201, `short_code = c`, `original_url = url` and
`short_url` the base URL followed by `/` and `c`; in the store it leaves, `c`
maps to the entry `(url, c, now, 0)`, and a stats request for `c` made right
after reports `original_url = url` and `clicks = 0`. -/
theorem handleShorten_roundtrip (env : Env) (r : Request) (s : URLStore) (url : String)
    (hm : r.Method = "POST") (hd : env.Decode r.Body = some ⟨url⟩) (hu : url ≠ "") :
    ∃ c s', generateShortCode env.Rand = some c ∧
      handleShorten env r s =
        some (⟨201, Payload.shorten
          { ShortURL := (if env.Getenv "BASE_URL" = "" then "http://localhost:8080"
              else env.Getenv "BASE_URL") ++ "/" ++ c,
            ShortCode := c, OriginalURL := url }⟩, s') ∧
      s'.urls c = some { OriginalURL := url, ShortCode := c, CreatedAt := env.Now, Clicks := 0 } ∧
      ∀ body, handleStats ⟨"GET", "/stats/" ++ c, body⟩ s' =
        some (⟨200, Payload.stats
          { ShortCode := c, OriginalURL := url, Clicks := 0, CreatedAt := env.Now }⟩, s') := by
  refine ⟨_, _, generateShortCode_eq env.Rand, handleShorten_created env r s url hm hd hu,
    set_urls_same _ _ _, ?_⟩
  intro body
  simp [handleStats, sliceFrom_stats, set_urls_same]

/-- C6: whenever a request is answered with an error status (400, 404 or 405),
by whichever handler, the store after the request is the store before it; and
the error is one of: 405 from `handleShorten` or `handleStats` for a wrong
method, 400 from `handleShorten` for an undecodable body or an empty `url`, 404
from `handleRoot` or `handleStats` for a code that is not a key of the store. -/
theorem error_leaves_store (op : Op) (s s' : URLStore) (resp : Response)
    (h : applyOp op s = some (resp, s'))
    (herr : resp.Status = 400 ∨ resp.Status = 404 ∨ resp.Status = 405) :
    s' = s ∧ errorCause s resp op := by
  cases op with
  | stats r =>
    refine ⟨handleStats_store r s s' resp h, ?_⟩
    simp only [applyOp, handleStats] at h
    simp only [errorCause]
    split at h
    · rename_i hm
      simp only [Option.some.injEq, Prod.mk.injEq] at h
      rw [← h.1]
      exact Or.inl ⟨rfl, hm⟩
    · rename_i hm
      split at h
      · exact absurd h (by simp)
      · rename_i code hcode
        split at h
        · rename_i hnone
          simp only [Option.some.injEq, Prod.mk.injEq] at h
          rw [← h.1]
          exact Or.inr ⟨rfl, not_not.mp hm, code, hcode, hnone⟩
        · simp only [Option.some.injEq, Prod.mk.injEq] at h
          rw [← h.1] at herr
          simp at herr
  | root r =>
    simp only [applyOp, handleRoot] at h
    simp only [errorCause]
    split at h
    · rename_i hp
      split at h
      · exact absurd h (by simp)
      · rename_i code hcode
        split at h
        · rename_i hnone
          simp only [Option.some.injEq, Prod.mk.injEq] at h
          rw [← h.1, ← h.2]
          exact ⟨rfl, rfl, hp, code, hcode, hnone⟩
        · simp only [Option.some.injEq, Prod.mk.injEq] at h
          rw [← h.1] at herr
          simp at herr
    · simp only [Option.some.injEq, Prod.mk.injEq] at h
      rw [← h.1] at herr
      simp at herr
  | shorten env r =>
    simp only [applyOp, handleShorten] at h
    simp only [errorCause]
    split at h
    · rename_i hm
      simp only [Option.some.injEq, Prod.mk.injEq] at h
      rw [← h.1, ← h.2]
      exact ⟨rfl, Or.inl ⟨rfl, hm⟩⟩
    · rename_i hm
      split at h
      · rename_i hd
        simp only [Option.some.injEq, Prod.mk.injEq] at h
        rw [← h.1, ← h.2]
        exact ⟨rfl, Or.inr ⟨rfl, not_not.mp hm, Or.inl hd⟩⟩
      · rename_i req hd
        split at h
        · rename_i hu
          simp only [Option.some.injEq, Prod.mk.injEq] at h
          rw [← h.1, ← h.2]
          refine ⟨rfl, Or.inr ⟨rfl, not_not.mp hm, Or.inr ?_⟩⟩
          rw [hd, ← hu]
        · split at h
          · exact absurd h (by simp)
          · simp only [Option.some.injEq, Prod.mk.injEq] at h
            rw [← h.1] at herr
            simp at herr

/-- C4, as stated, fails when the counter is at the largest `int`: the redirect
for `AAAAAAAA` answers 302, and the stored `Clicks` goes from `9223372036854775807`
to `-9223372036854775808` instead of growing by 1. -/
theorem handleRoot_clicks_wrap_counterexample :
    (sampleStore 9223372036854775807).urls "AAAAAAAA" =
      some ⟨"https://old.example", "AAAAAAAA", 3, 9223372036854775807⟩ ∧
    inIntRange 9223372036854775807 ∧
    (handleRoot ⟨"GET", "/" ++ "AAAAAAAA", ""⟩ (sampleStore 9223372036854775807)).map
        (fun p => (p.1, p.2.urls "AAAAAAAA")) =
      some (⟨302, Payload.redirect "https://old.example"⟩,
        some ⟨"https://old.example", "AAAAAAAA", 3, -9223372036854775808⟩) ∧
    (-9223372036854775808 : Int) ≠ 9223372036854775807 + 1 := by
  decide

/-- C4, amended: for a non-empty code `c` present in the store whose `Clicks` is
below the largest `int`, one redirect request for `c` run without interleaving
answers 302 to the entry's `OriginalURL`; afterwards `c` maps to the same entry
with `Clicks` grown by exactly 1, every other key maps to what it mapped to, and
no key is added or removed. -/
theorem handleRoot_frame (s : URLStore) (c method body : String) (e : URLEntry)
    (hne : c ≠ "") (hc : s.urls c = some e) (hmin : minInt ≤ e.Clicks)
    (hmax : e.Clicks < maxInt) :
    ∃ s', handleRoot ⟨method, "/" ++ c, body⟩ s =
        some (⟨302, Payload.redirect e.OriginalURL⟩, s') ∧
      s'.urls c = some ⟨e.OriginalURL, e.ShortCode, e.CreatedAt, e.Clicks + 1⟩ ∧
      (∀ k, k ≠ c → s'.urls k = s.urls k) ∧
      (∀ k, (s'.urls k).isSome = (s.urls k).isSome) := by
  refine ⟨_, handleRoot_found ⟨method, "/" ++ c, body⟩ s c e (root_path_ne c hne)
    (sliceFrom_root c) hc, ?_, ?_, ?_⟩
  · rw [set_urls_same, wrapInt_succ _ hmin hmax]
  · intro k hk
    exact set_urls_other _ _ _ _ hk
  · intro k
    by_cases hk : k = c
    · rw [hk, set_urls_same, hc]; rfl
    · rw [set_urls_other _ _ _ _ hk]

/-- C2, as stated, fails: with `AAAAAAAA` already a key of the store and six zero
bytes drawn, `handleShorten` assigns the code `AAAAAAAA` again and replaces the
entry stored under it; and two successive creations with the same URL and the
same bytes drawn get the same code. -/
theorem handleShorten_collision_counterexample :
    (sampleStore 5).urls "AAAAAAAA" = some ⟨"https://old.example", "AAAAAAAA", 3, 5⟩ ∧
    generateShortCode sampleEnv.Rand = some "AAAAAAAA" ∧
    (handleShorten sampleEnv sampleShorten (sampleStore 5)).map
        (fun p => (p.1, p.2.urls "AAAAAAAA")) =
      some (⟨201, Payload.shorten
          ⟨"http://localhost:8080/AAAAAAAA", "AAAAAAAA", "https://example.com"⟩⟩,
        some ⟨"https://example.com", "AAAAAAAA", 7, 0⟩) ∧
    ((handleShorten sampleEnv sampleShorten store).bind fun p =>
        (handleShorten sampleEnv sampleShorten p.2).map fun q => (p.1, q.1)) =
      some (⟨201, Payload.shorten
          ⟨"http://localhost:8080/AAAAAAAA", "AAAAAAAA", "https://example.com"⟩⟩,
        ⟨201, Payload.shorten
          ⟨"http://localhost:8080/AAAAAAAA", "AAAAAAAA", "https://example.com"⟩⟩) := by
  decide

/-- C2, amended: for a non-empty `url`, `handleShorten` stores the new entry under
the code `c` that `generateShortCode` returns, which is the encoding of the six
bytes drawn whatever the store holds; every other key keeps its entry, so when
`c` is not a key of the store at the time of the call no existing entry is
overwritten; and a second creation with the same `url` gets a code distinct from
`c` exactly when its six bytes differ from those of the first. -/
theorem handleShorten_keeps_other_keys (env : Env) (r : Request) (s : URLStore) (url : String)
    (hm : r.Method = "POST") (hd : env.Decode r.Body = some ⟨url⟩) (hu : url ≠ "") :
    ∃ c resp s', generateShortCode env.Rand = some c ∧
      c = EncodeToString (randRead env.Rand (List.replicate 6 0)) ∧
      handleShorten env r s = some (resp, s') ∧
      s'.urls c = some ⟨url, c, env.Now, 0⟩ ∧
      (∀ k, k ≠ c → s'.urls k = s.urls k) ∧
      (s.urls c = none → ∀ k e, s.urls k = some e → s'.urls k = some e) ∧
      ∀ (env2 : Env) (r2 : Request), r2.Method = "POST" →
        env2.Decode r2.Body = some ⟨url⟩ →
        ∃ c2 resp2 s2, generateShortCode env2.Rand = some c2 ∧
          handleShorten env2 r2 s' = some (resp2, s2) ∧
          s2.urls c2 = some ⟨url, c2, env2.Now, 0⟩ ∧
          (c2 ≠ c ↔ randRead env2.Rand (List.replicate 6 0) ≠
            randRead env.Rand (List.replicate 6 0)) := by
  refine ⟨_, _, _, generateShortCode_eq env.Rand, rfl,
    handleShorten_created env r s url hm hd hu, set_urls_same _ _ _, ?_, ?_, ?_⟩
  · intro k hk
    exact set_urls_other _ _ _ _ hk
  · intro hfresh k e hk
    have hne : k ≠ EncodeToString (randRead env.Rand (List.replicate 6 0)) := by
      intro hkc
      rw [hkc, hfresh] at hk
      exact absurd hk (by simp)
    rw [set_urls_other _ _ _ _ hne]
    exact hk
  · intro env2 r2 hm2 hd2
    refine ⟨_, _, _, generateShortCode_eq env2.Rand,
      handleShorten_created env2 r2 _ url hm2 hd2 hu, set_urls_same _ _ _, ?_⟩
    apply not_congr
    constructor
    · intro hcc
      apply shortCode_bytes_injective
      rw [generateShortCode_eq, generateShortCode_eq, hcc]
    · intro hbb
      rw [hbb]

/-- C5, as stated, fails: a shorten request whose generated code is the key
`AAAAAAAA`, stored with 5 clicks, is answered 201 and leaves `AAAAAAAA` with 0
clicks. -/
theorem shorten_resets_clicks_counterexample :
    ((sampleStore 5).urls "AAAAAAAA").map URLEntry.Clicks = some 5 ∧
    (applyOp (Op.shorten sampleEnv sampleShorten) (sampleStore 5)).map
        (fun p => (p.1.Status, (p.2.urls "AAAAAAAA").map URLEntry.Clicks)) =
      some (201, some 0) := by
  decide

/-- C5, amended: after any answered operation a code `c` present before is still
present, and its `Clicks` is at least what it was, unless the operation is a
shorten answered 201 whose generated code is `c` or a redirect for `c` while its
`Clicks` is the largest `int`. -/
theorem clicks_never_decrease (op : Op) (s s' : URLStore) (resp : Response) (c : String)
    (e : URLEntry) (h : applyOp op s = some (resp, s')) (hc : s.urls c = some e)
    (hr : inIntRange e.Clicks) :
    ∃ e', s'.urls c = some e' ∧
      ((∀ env r, op = Op.shorten env r → resp.Status = 201 →
          generateShortCode env.Rand ≠ some c) →
        (∀ r, op = Op.root r → sliceFrom r.Path 1 = some c → e.Clicks ≠ maxInt) →
        e.Clicks ≤ e'.Clicks) := by
  cases op with
  | stats r =>
    rw [handleStats_store r s s' resp h]
    exact ⟨e, hc, fun _ _ => le_refl _⟩
  | root r =>
    simp only [applyOp, handleRoot] at h
    split at h
    · split at h
      · exact absurd h (by simp)
      · rename_i code hcode
        split at h
        · simp only [Option.some.injEq, Prod.mk.injEq] at h
          rw [← h.2]
          exact ⟨e, hc, fun _ _ => le_refl _⟩
        · rename_i entry hentry
          simp only [rootWriteBack, Option.some.injEq, Prod.mk.injEq] at h
          rw [← h.2]
          by_cases hk : c = code
          · subst hk
            simp only [rootLoad] at hentry
            rw [hc] at hentry
            cases hentry
            refine ⟨_, set_urls_same _ _ _, ?_⟩
            intro _ hroot
            have hne := hroot r rfl hcode
            have hlt : e.Clicks < maxInt := lt_of_le_of_ne hr.2 hne
            show e.Clicks ≤ wrapInt (e.Clicks + 1)
            rw [wrapInt_succ _ hr.1 hlt]
            omega
          · rw [set_urls_other _ _ _ _ hk]
            exact ⟨e, hc, fun _ _ => le_refl _⟩
    · simp only [Option.some.injEq, Prod.mk.injEq] at h
      rw [← h.2]
      exact ⟨e, hc, fun _ _ => le_refl _⟩
  | shorten env r =>
    simp only [applyOp, handleShorten] at h
    split at h
    · simp only [Option.some.injEq, Prod.mk.injEq] at h
      rw [← h.2]
      exact ⟨e, hc, fun _ _ => le_refl _⟩
    · split at h
      · simp only [Option.some.injEq, Prod.mk.injEq] at h
        rw [← h.2]
        exact ⟨e, hc, fun _ _ => le_refl _⟩
      · split at h
        · simp only [Option.some.injEq, Prod.mk.injEq] at h
          rw [← h.2]
          exact ⟨e, hc, fun _ _ => le_refl _⟩
        · split at h
          · exact absurd h (by simp)
          · rename_i code hcode
            simp only [Option.some.injEq, Prod.mk.injEq] at h
            rw [← h.2]
            by_cases hk : c = code
            · subst hk
              refine ⟨_, set_urls_same _ _ _, ?_⟩
              intro hshorten _
              exact absurd hcode (hshorten env r rfl (by rw [← h.1]))
            · rw [set_urls_other _ _ _ _ hk]
              exact ⟨e, hc, fun _ _ => le_refl _⟩

/-- C10, as stated, fails: no two entropy sources that yield distinct six-byte
sequences get the same code from `generateShortCode`. -/
theorem generateShortCode_collision_free :
    ¬ ∃ e1 e2 : Nat → Nat,
      randRead e1 (List.replicate 6 0) ≠ randRead e2 (List.replicate 6 0) ∧
      generateShortCode e1 = generateShortCode e2 := by
  rintro ⟨e1, e2, hne, heq⟩
  exact hne (shortCode_bytes_injective e1 e2 heq)

/-- C10, amended: the URL-safe base64 encoding of six bytes has exactly eight
characters, so the slice `[:8]` removes nothing, and two draws get the same code
exactly when they are the same six bytes (all 48 bits are kept). -/
theorem generateShortCode_injective (e1 e2 : Nat → Nat) :
    (EncodeToString (randRead e1 (List.replicate 6 0))).length = 8 ∧
    generateShortCode e1 = some (EncodeToString (randRead e1 (List.replicate 6 0))) ∧
    (generateShortCode e1 = generateShortCode e2 ↔
      randRead e1 (List.replicate 6 0) = randRead e2 (List.replicate 6 0)) := by
  refine ⟨by rw [randRead_six]; rfl, generateShortCode_eq e1, shortCode_bytes_injective e1 e2, ?_⟩
  intro hbb
  rw [generateShortCode_eq, generateShortCode_eq, hbb]

/-! ## Key/entry agreement is an invariant of the running service -/

theorem keysAgree_store : KeysAgree store := by
  intro k e h
  exact absurd h (by simp [store])

theorem keysAgree_set (s : URLStore) (k : String) (e : URLEntry) (hs : KeysAgree s)
    (he : e.ShortCode = k) : KeysAgree (s.set k e) := by
  intro k' e' h
  by_cases hk : k' = k
  · rw [hk, set_urls_same] at h
    cases h
    rw [hk]; exact he
  · rw [set_urls_other _ _ _ _ hk] at h
    exact hs k' e' h

theorem keysAgree_applyOp (op : Op) (s s' : URLStore) (resp : Response) (hs : KeysAgree s)
    (h : applyOp op s = some (resp, s')) : KeysAgree s' := by
  cases op with
  | stats r => rw [handleStats_store r s s' resp h]; exact hs
  | root r =>
    simp only [applyOp, handleRoot] at h
    split at h
    · split at h
      · exact absurd h (by simp)
      · split at h
        · simp only [Option.some.injEq, Prod.mk.injEq] at h
          rw [← h.2]; exact hs
        · rename_i entry hentry
          simp only [rootWriteBack, Option.some.injEq, Prod.mk.injEq] at h
          rw [← h.2]
          exact keysAgree_set _ _ _ hs (hs _ entry hentry)
    · simp only [Option.some.injEq, Prod.mk.injEq] at h
      rw [← h.2]; exact hs
  | shorten env r =>
    simp only [applyOp, handleShorten] at h
    split at h
    · simp only [Option.some.injEq, Prod.mk.injEq] at h
      rw [← h.2]; exact hs
    · split at h
      · simp only [Option.some.injEq, Prod.mk.injEq] at h
        rw [← h.2]; exact hs
      · split at h
        · simp only [Option.some.injEq, Prod.mk.injEq] at h
          rw [← h.2]; exact hs
        · split at h
          · exact absurd h (by simp)
          · simp only [Option.some.injEq, Prod.mk.injEq] at h
            rw [← h.2]
            exact keysAgree_set _ _ _ hs rfl

theorem agrees_rootStep (t : RootThread) (s : URLStore) (hs : KeysAgree s)
    (ht : ThreadAgrees t) :
    KeysAgree (rootStep t s).2 ∧ ThreadAgrees (rootStep t s).1 := by
  cases t with
  | atLoad c =>
    cases hc : s.urls c with
    | none => simpa [rootStep, rootLoad, hc, ThreadAgrees] using hs
    | some e =>
      have := hs c e hc
      simpa [rootStep, rootLoad, hc, ThreadAgrees, this] using hs
  | atWriteBack c e =>
    simp only [rootStep, rootWriteBack, ThreadAgrees, and_true]
    exact keysAgree_set _ _ _ hs ht
  | done resp => simpa [rootStep, ThreadAgrees] using hs

theorem systemAgrees_applyEvent (sys : System) (ev : Event) (h : SystemAgrees sys) :
    SystemAgrees (applyEvent sys ev) := by
  obtain ⟨hs, ht⟩ := h
  cases ev with
  | op o =>
    simp only [applyEvent]
    split
    · exact ⟨hs, ht⟩
    · rename_i resp s' hop
      exact ⟨keysAgree_applyOp o _ _ resp hs hop, ht⟩
  | rootBegin r =>
    simp only [applyEvent]
    split
    · split
      · exact ⟨hs, ht⟩
      · refine ⟨hs, ?_⟩
        intro t hmem
        rcases List.mem_append.mp hmem with hmem | hmem
        · exact ht t hmem
        · rw [List.mem_singleton.mp hmem]; trivial
    · exact ⟨hs, ht⟩
  | rootAdvance i =>
    simp only [applyEvent]
    split
    · exact ⟨hs, ht⟩
    · rename_i t hget
      have hmem : t ∈ sys.inflight := List.get?_mem hget
      obtain ⟨h1, h2⟩ := agrees_rootStep t sys.store hs (ht t hmem)
      refine ⟨h1, ?_⟩
      intro t' hmem'
      rcases List.mem_or_eq_of_mem_set hmem' with hm | hm
      · exact ht t' hm
      · rw [hm]; exact h2

theorem systemAgrees_run (events : List Event) (sys : System) (h : SystemAgrees sys) :
    SystemAgrees (run sys events) := by
  induction events generalizing sys with
  | nil => exact h
  | cons ev rest ih => exact ih _ (systemAgrees_applyEvent sys ev h)

/-- C9: in every state reached from the empty store by any sequence of shorten,
redirect and stats requests, the locked read and the locked write-back of the
redirects interleaved in any order, every key of the map is the `ShortCode` of
the entry stored under it. -/
theorem key_entry_agreement (events : List Event) (k : String) (e : URLEntry)
    (h : (run System.init events).store.urls k = some e) : e.ShortCode = k :=
  (systemAgrees_run events System.init
    ⟨keysAgree_store, fun _ hmem => absurd hmem (List.not_mem_nil _)⟩).1 k e h

/-- C1, failing input: with `AAAAAAAA` stored at 0 clicks, two redirect requests
both read before either writes back; both are answered 302 and the stored
`Clicks` is 1, not 2.  Served one after the other they leave it at 2. -/
theorem handleRoot_lost_update :
    (run ⟨sampleStore 0, []⟩
        [Event.rootBegin sampleRedirect, Event.rootBegin sampleRedirect,
          Event.rootAdvance 0, Event.rootAdvance 1,
          Event.rootAdvance 0, Event.rootAdvance 1]).inflight =
      [RootThread.done ⟨302, Payload.redirect "https://old.example"⟩,
        RootThread.done ⟨302, Payload.redirect "https://old.example"⟩] ∧
    ((run ⟨sampleStore 0, []⟩
        [Event.rootBegin sampleRedirect, Event.rootBegin sampleRedirect,
          Event.rootAdvance 0, Event.rootAdvance 1,
          Event.rootAdvance 0, Event.rootAdvance 1]).store.urls "AAAAAAAA").map
        URLEntry.Clicks = some 1 ∧
    ((run ⟨sampleStore 0, []⟩
        [Event.rootBegin sampleRedirect, Event.rootBegin sampleRedirect,
          Event.rootAdvance 0, Event.rootAdvance 0,
          Event.rootAdvance 1, Event.rootAdvance 1]).store.urls "AAAAAAAA").map
        URLEntry.Clicks = some 2 := by
  decide

/-! ## The theorems with hypotheses, at concrete inputs -/

/-- The round trip of C3 for `https://example.com` on the empty store. -/
theorem handleShorten_roundtrip_witness :
    (sampleShorten.Method = "POST" ∧
      sampleEnv.Decode sampleShorten.Body = some ⟨"https://example.com"⟩ ∧
      "https://example.com" ≠ "") ∧
    ∃ c s', generateShortCode sampleEnv.Rand = some c ∧
      handleShorten sampleEnv sampleShorten store =
        some (⟨201, Payload.shorten
          { ShortURL := (if sampleEnv.Getenv "BASE_URL" = "" then "http://localhost:8080"
              else sampleEnv.Getenv "BASE_URL") ++ "/" ++ c,
            ShortCode := c, OriginalURL := "https://example.com" }⟩, s') ∧
      s'.urls c = some { OriginalURL := "https://example.com", ShortCode := c,
                         CreatedAt := sampleEnv.Now, Clicks := 0 } ∧
      ∀ body, handleStats ⟨"GET", "/stats/" ++ c, body⟩ s' =
        some (⟨200, Payload.stats
          { ShortCode := c, OriginalURL := "https://example.com", Clicks := 0,
            CreatedAt := sampleEnv.Now }⟩, s') :=
  ⟨⟨rfl, rfl, by decide⟩,
    handleShorten_roundtrip sampleEnv sampleShorten store "https://example.com" rfl rfl
      (by decide)⟩

/-- The store is untouched by the 404 of C6 for the unknown code `nope`. -/
theorem error_leaves_store_witness :
    (applyOp (Op.root ⟨"GET", "/nope", ""⟩) store = some (⟨404, Payload.notFound⟩, store) ∧
      ((⟨404, Payload.notFound⟩ : Response).Status = 400 ∨
        (⟨404, Payload.notFound⟩ : Response).Status = 404 ∨
        (⟨404, Payload.notFound⟩ : Response).Status = 405)) ∧
    store = store ∧
    errorCause store ⟨404, Payload.notFound⟩ (Op.root ⟨"GET", "/nope", ""⟩) :=
  ⟨⟨rfl, Or.inr (Or.inl rfl)⟩,
    error_leaves_store (Op.root ⟨"GET", "/nope", ""⟩) store store ⟨404, Payload.notFound⟩ rfl
      (Or.inr (Or.inl rfl))⟩

/-- The redirect of C4 for `AAAAAAAA`, stored with 5 clicks. -/
theorem handleRoot_frame_witness :
    ("AAAAAAAA" ≠ "" ∧
      (sampleStore 5).urls "AAAAAAAA" = some ⟨"https://old.example", "AAAAAAAA", 3, 5⟩ ∧
      minInt ≤ 5 ∧ (5 : Int) < maxInt) ∧
    ∃ s', handleRoot ⟨"GET", "/" ++ "AAAAAAAA", ""⟩ (sampleStore 5) =
        some (⟨302, Payload.redirect "https://old.example"⟩, s') ∧
      s'.urls "AAAAAAAA" = some ⟨"https://old.example", "AAAAAAAA", 3, 5 + 1⟩ ∧
      (∀ k, k ≠ "AAAAAAAA" → s'.urls k = (sampleStore 5).urls k) ∧
      (∀ k, (s'.urls k).isSome = ((sampleStore 5).urls k).isSome) :=
  ⟨⟨by decide, rfl, by decide, by decide⟩,
    handleRoot_frame (sampleStore 5) "AAAAAAAA" "GET" ""
      ⟨"https://old.example", "AAAAAAAA", 3, 5⟩ (by decide) rfl (by decide) (by decide)⟩

/-- The creation of C2 for `https://example.com` on the empty store. -/
theorem handleShorten_keeps_other_keys_witness :
    (sampleShorten.Method = "POST" ∧
      sampleEnv.Decode sampleShorten.Body = some ⟨"https://example.com"⟩ ∧
      "https://example.com" ≠ "") ∧
    ∃ c resp s', generateShortCode sampleEnv.Rand = some c ∧
      c = EncodeToString (randRead sampleEnv.Rand (List.replicate 6 0)) ∧
      handleShorten sampleEnv sampleShorten store = some (resp, s') ∧
      s'.urls c = some ⟨"https://example.com", c, sampleEnv.Now, 0⟩ ∧
      (∀ k, k ≠ c → s'.urls k = store.urls k) ∧
      (store.urls c = none → ∀ k e, store.urls k = some e → s'.urls k = some e) ∧
      ∀ (env2 : Env) (r2 : Request), r2.Method = "POST" →
        env2.Decode r2.Body = some ⟨"https://example.com"⟩ →
        ∃ c2 resp2 s2, generateShortCode env2.Rand = some c2 ∧
          handleShorten env2 r2 s' = some (resp2, s2) ∧
          s2.urls c2 = some ⟨"https://example.com", c2, env2.Now, 0⟩ ∧
          (c2 ≠ c ↔ randRead env2.Rand (List.replicate 6 0) ≠
            randRead sampleEnv.Rand (List.replicate 6 0)) :=
  ⟨⟨rfl, rfl, by decide⟩,
    handleShorten_keeps_other_keys sampleEnv sampleShorten store "https://example.com" rfl rfl
      (by decide)⟩

/-- The redirect for `AAAAAAAA`, stored with 5 clicks, as an operation of C5. -/
theorem clicks_never_decrease_witness :
    (applyOp (Op.root sampleRedirect) (sampleStore 5) =
        some (⟨302, Payload.redirect "https://old.example"⟩,
          (sampleStore 5).set "AAAAAAAA" ⟨"https://old.example", "AAAAAAAA", 3, 6⟩) ∧
      (sampleStore 5).urls "AAAAAAAA" = some ⟨"https://old.example", "AAAAAAAA", 3, 5⟩ ∧
      inIntRange 5) ∧
    ∃ e', ((sampleStore 5).set "AAAAAAAA" ⟨"https://old.example", "AAAAAAAA", 3, 6⟩).urls
          "AAAAAAAA" = some e' ∧
      ((∀ env r, Op.root sampleRedirect = Op.shorten env r →
          (⟨302, Payload.redirect "https://old.example"⟩ : Response).Status = 201 →
          generateShortCode env.Rand ≠ some "AAAAAAAA") →
        (∀ r, Op.root sampleRedirect = Op.root r → sliceFrom r.Path 1 = some "AAAAAAAA" →
          (5 : Int) ≠ maxInt) →
        (5 : Int) ≤ e'.Clicks) :=
  ⟨⟨rfl, rfl, by decide⟩,
    clicks_never_decrease (Op.root sampleRedirect) (sampleStore 5) _
      ⟨302, Payload.redirect "https://old.example"⟩ "AAAAAAAA"
      ⟨"https://old.example", "AAAAAAAA", 3, 5⟩ rfl rfl (by decide)⟩

/-- The agreement of C9 after a creation and an interleaved redirect. -/
theorem key_entry_agreement_witness :
    (run System.init
        [Event.op (Op.shorten sampleEnv sampleShorten), Event.rootBegin sampleRedirect,
          Event.rootAdvance 0, Event.op (Op.stats ⟨"GET", "/stats/AAAAAAAA", ""⟩),
          Event.rootAdvance 0]).store.urls "AAAAAAAA" =
      some ⟨"https://example.com", "AAAAAAAA", 7, 1⟩ ∧
    (⟨"https://example.com", "AAAAAAAA", 7, 1⟩ : URLEntry).ShortCode = "AAAAAAAA" :=
  ⟨by decide,
    key_entry_agreement
      [Event.op (Op.shorten sampleEnv sampleShorten), Event.rootBegin sampleRedirect,
        Event.rootAdvance 0, Event.op (Op.stats ⟨"GET", "/stats/AAAAAAAA", ""⟩),
        Event.rootAdvance 0]
      "AAAAAAAA" ⟨"https://example.com", "AAAAAAAA", 7, 1⟩ (by decide)⟩

end UrlShortener
